import Mathlib

/-!
Verification of the Task Tracker CLI (src/task-cli.py) against its
natural-language specification.

The Python program is a single-file CRUD application over an in-memory list
of tasks serialized to `tasks.json`.  We give a shallow embedding of its data
model (`Task`, `Task.to_dict`, `Task.from_dict`), its store operations
(`get_next_id`, `add_task`, `update_task`, `delete_task`, `mark_task`,
`get_task_by_id`, `list_tasks`) and its persistence layer
(`save_tasks`, `load_tasks`).

Embedding conventions:
- The in-memory store `self.tasks` is passed explicitly as a `List Task`;
  an operation that mutates it returns the new list.
- `datetime.now().strftime(...)` is an injected `now : String` parameter.
- JSON values are modelled by the inductive `Json`; the textual layer
  (`json.dump` / `json.load` on well-formed values) is treated as the
  identity on `Json` values, so `save_tasks` produces the `Json` value it
  serializes and `load_tasks` consumes the outcome of reading plus parsing
  the backing file, described by `LoadSrc`.
- Python exceptions are modelled by `Except PyError`; an operation that can
  raise returns `Except PyError α`, and a raised exception that the source
  does not catch appears as `Except.error`.
-/

namespace TaskCLI

/-- Python runtime errors that the embedded code can raise. -/
inductive PyError where
  | typeError (msg : String)
  | keyError (key : String)
  | attributeError (attr : String)
deriving DecidableEq

/-- JSON values, as produced by Python's `json.load`.  JSON numbers are
modelled as integers: every number this program writes is a task id. -/
inductive Json where
  | null
  | bool (b : Bool)
  | num (n : Int)
  | str (s : String)
  | arr (elems : List Json)
  | obj (fields : List (String × Json))

/-- The `Task` record of `task-cli.py`: id, description, status and the two
timestamp strings (format `DD/MM/YYYY HH:MM:SS`). -/
structure Task where
  id : Int
  description : String
  status : String
  createdAt : String
  updatedAt : String
deriving DecidableEq

namespace Task

/-- `Task.to_dict`: the dictionary written to `tasks.json` for one task,
with its five keys in source order. -/
def to_dict (t : Task) : List (String × Json) :=
  [ ("id", Json.num t.id),
    ("description", Json.str t.description),
    ("status", Json.str t.status),
    ("createdAt", Json.str t.createdAt),
    ("updatedAt", Json.str t.updatedAt) ]

/-- `data[key]` on a Python dict: the value when the key is present,
`KeyError` otherwise. -/
def dictGet (fields : List (String × Json)) (key : String) : Except PyError Json :=
  match fields.lookup key with
  | some v => Except.ok v
  | none => Except.error (PyError.keyError key)

/-- `Task.from_dict`: reads the five required keys (a missing key raises
`KeyError`, which the source does not catch).  Python stores whatever raw
values the keys hold; the embedding types the fields, so a present key whose
value does not conform to the schema is rejected here, a case no claim
depends on.  Indexing a non-dict with a string key raises `TypeError`. -/
def from_dict (data : Json) : Except PyError Task :=
  match data with
  | Json.obj fields => do
      let idv ← dictGet fields "id"
      let descv ← dictGet fields "description"
      let statusv ← dictGet fields "status"
      let createdv ← dictGet fields "createdAt"
      let updatedv ← dictGet fields "updatedAt"
      match idv, descv, statusv, createdv, updatedv with
      | Json.num i, Json.str d, Json.str s, Json.str c, Json.str u =>
          Except.ok ⟨i, d, s, c, u⟩
      | _, _, _, _, _ => Except.error (PyError.typeError "non-conforming field value")
  | _ => Except.error (PyError.typeError "indices must be str")

end Task

/-- Outcome of locating, opening and parsing the backing file, the input of
`load_tasks`: the file may be absent, unreadable (`IOError`), syntactically
invalid (`json.JSONDecodeError`), or parsed into a `Json` value. -/
inductive LoadSrc where
  | missing
  | unreadable (msg : String)
  | invalid (msg : String)
  | parsed (data : Json)

/-- The list comprehension `[Task.from_dict(task_data) for task_data in data]`:
each element is converted in order and the first raised exception
propagates. -/
def loadList : List Json → Except PyError (List Task)
  | [] => Except.ok []
  | j :: rest => do
      let t ← Task.from_dict j
      let ts ← loadList rest
      Except.ok (t :: ts)

/-- `TaskManager.load_tasks`: a missing file yields `[]`; `JSONDecodeError`
and `IOError` are caught and yield `[]`; a parsed value is iterated and each
element passed to `Task.from_dict` (iterating a non-array, or a missing key
in an element, raises an exception that the source does not catch). -/
def load_tasks (src : LoadSrc) : Except PyError (List Task) :=
  match src with
  | LoadSrc.missing => Except.ok []
  | LoadSrc.unreadable _ => Except.ok []
  | LoadSrc.invalid _ => Except.ok []
  | LoadSrc.parsed (Json.arr elems) => loadList elems
  | LoadSrc.parsed _ => Except.error (PyError.typeError "object is not iterable")

/-- `TaskManager.save_tasks`: the JSON value `json.dump` writes, an array of
the tasks' dictionaries in store order. -/
def save_tasks (tasks : List Task) : Json :=
  Json.arr (tasks.map (fun t => Json.obj t.to_dict))

/-- Python's `max(xs, default=d)`: the maximum of the list when it is
non-empty, `d` otherwise. -/
def pyMax (xs : List Int) (default : Int) : Int :=
  match xs with
  | [] => default
  | x :: rest => rest.foldl max x

/-- `TaskManager.get_next_id`: `max([task.id for task in self.tasks],
default=0) + 1`. -/
def get_next_id (tasks : List Task) : Int :=
  pyMax (tasks.map Task.id) 0 + 1

/-- `TaskManager.add_task`: builds a task with the next id, the given
description, status `"todo"` and both timestamps equal to `now`, appends it,
persists, and returns its id.  The returned list is the persisted store. -/
def add_task (tasks : List Task) (description : String) (now : String) :
    List Task × Int :=
  let task : Task := ⟨get_next_id tasks, description, "todo", now, now⟩
  (tasks ++ [task], task.id)

/-- A call of the bound method `self.get_next_id(...)` with the given extra
positional arguments: Python checks arity before running the body, and
`get_next_id` declares no parameter besides `self`, so any extra argument
raises `TypeError` without the body running. -/
def callGetNextId (tasks : List Task) (extraArgs : List Int) :
    Except PyError Int :=
  match extraArgs with
  | [] => Except.ok (get_next_id tasks)
  | _ => Except.error
      (PyError.typeError "get_next_id takes 1 positional argument but 2 were given")

/-- `TaskManager.update_task`: the first statement is
`task = self.get_next_id(task_id)`, which raises `TypeError` (extra
positional argument), so the body below it is unreachable.  Were the call to
return the int, `task.description = description` on an int would raise
`AttributeError`; the falsy branch returns `False` with the store
unchanged. -/
def update_task (tasks : List Task) (task_id : Int) (description : String)
    (now : String) : Except PyError (List Task × Bool) := do
  let task ← callGetNextId tasks [task_id]
  if task ≠ 0 then
    Except.error (PyError.attributeError "description")
  else
    Except.ok (tasks, false)

/-- `TaskManager.mark_task`: same shape as `update_task`, with the same
`task = self.get_next_id(task_id)` first statement, so it raises `TypeError`
on every input before touching any task. -/
def mark_task (tasks : List Task) (task_id : Int) (status : String)
    (now : String) : Except PyError (List Task × Bool) := do
  let task ← callGetNextId tasks [task_id]
  if task ≠ 0 then
    Except.error (PyError.attributeError "status")
  else
    Except.ok (tasks, false)

/-- `TaskManager.get_task_by_id`: the first task whose id equals `task_id`,
or `None`. -/
def get_task_by_id (tasks : List Task) (task_id : Int) : Option Task :=
  match tasks with
  | [] => none
  | t :: rest => if t.id = task_id then some t else get_task_by_id rest task_id

/-- Python's `list.remove(x)`: removes the first element equal to `x`.
`Task` defines no custom equality, so equality is object identity; the
argument is always an element found in the very list, for which removing the
first structurally equal element removes that occurrence.  The `ValueError`
branch for an absent element is unreachable in this program. -/
def listRemove (tasks : List Task) (x : Task) : List Task :=
  match tasks with
  | [] => []
  | t :: rest => if t = x then rest else t :: listRemove rest x

/-- `TaskManager.delete_task`: looks the task up by id; if found, removes it
and returns `True`; otherwise returns `False` with the store unchanged. -/
def delete_task (tasks : List Task) (task_id : Int) : List Task × Bool :=
  match get_task_by_id tasks task_id with
  | some task => (listRemove tasks task, true)
  | none => (tasks, false)

/-- Truthiness of the optional `status` argument of `list_tasks`: `None` and
the empty string are falsy, every other string is truthy. -/
def pyTruthy (status : Option String) : Bool :=
  match status with
  | none => false
  | some s => s ≠ ""

/-- `TaskManager.list_tasks`: `if status:` filters by status only when the
argument is truthy; `None` and `""` both return the whole store. -/
def list_tasks (tasks : List Task) (status : Option String) : List Task :=
  if pyTruthy status then
    tasks.filter (fun t => t.status == status.getD "")
  else
    tasks

/-- One CLI mutation, for reasoning about sequences of commands: `add` with
a description, or `delete` with an id.  Timestamps do not affect id
assignment, so `add` uses a fixed timestamp. -/
inductive Op where
  | add (description : String)
  | delete (id : Int)
deriving DecidableEq

/-- Applies one operation to the pair of the store and the list of all ids
ever assigned by `add`, in order of assignment. -/
def step (state : List Task × List Int) (op : Op) : List Task × List Int :=
  match op with
  | Op.add d =>
      let r := add_task state.1 d ""
      (r.1, state.2 ++ [r.2])
  | Op.delete i => ((delete_task state.1 i).1, state.2)

/-- Runs a sequence of operations from the empty store, collecting every id
assigned by `add`. -/
def run (ops : List Op) : List Task × List Int :=
  ops.foldl step ([], [])

/-- Sample task mirroring the fixture of `src/test.py`. -/
def oldTask : Task :=
  ⟨1, "Old Task", "todo", "01/02/2025 10:00:00", "01/02/2025 10:00:00"⟩

/-- Sample tasks with ids 1, 3 and 5, the non-contiguous store of the spec's
`nextId` example. -/
def task1 : Task := ⟨1, "a", "todo", "01/02/2025 10:00:00", "01/02/2025 10:00:00"⟩

def task3 : Task := ⟨3, "b", "done", "01/02/2025 10:00:00", "01/02/2025 10:00:00"⟩

def task5 : Task := ⟨5, "c", "in-progress", "01/02/2025 10:00:00", "01/02/2025 10:00:00"⟩

/-- Command sequence exhibiting id reuse: add, add, delete the task with
id 2, add again. -/
def opsReuse : List Op := [Op.add "a", Op.add "b", Op.delete 2, Op.add "c"]

theorem le_foldl_max (x : Int) (xs : List Int) : x ≤ xs.foldl max x := by
  induction xs generalizing x with
  | nil => exact le_refl x
  | cons a rest ih =>
      simp only [List.foldl_cons]
      exact le_trans (le_max_left x a) (ih (max x a))

theorem mem_le_foldl_max (x y : Int) (xs : List Int) (hy : y ∈ xs) :
    y ≤ xs.foldl max x := by
  induction xs generalizing x with
  | nil => cases hy
  | cons a rest ih =>
      simp only [List.foldl_cons]
      rcases List.mem_cons.mp hy with rfl | h
      · exact le_trans (le_max_right x y) (le_foldl_max _ _)
      · exact ih _ h

theorem foldl_max_mem (x : Int) (xs : List Int) :
    xs.foldl max x = x ∨ xs.foldl max x ∈ xs := by
  induction xs generalizing x with
  | nil => exact Or.inl rfl
  | cons a rest ih =>
      simp only [List.foldl_cons]
      rcases ih (max x a) with h | h
      · rcases max_choice x a with hx | ha
        · exact Or.inl (by rw [h, hx])
        · exact Or.inr (by rw [h, ha]; exact List.mem_cons_self a rest)
      · exact Or.inr (List.mem_cons_of_mem a h)

theorem id_lt_get_next_id (tasks : List Task) (t : Task) (ht : t ∈ tasks) :
    t.id < get_next_id tasks := by
  cases tasks with
  | nil => cases ht
  | cons a rest =>
      have hle : t.id ≤ pyMax ((a :: rest).map Task.id) 0 := by
        simp only [pyMax, List.map_cons]
        rcases List.mem_cons.mp ht with rfl | h
        · exact le_foldl_max _ _
        · exact mem_le_foldl_max _ _ _ (List.mem_map_of_mem Task.id h)
      unfold get_next_id
      omega

theorem get_next_id_attained (tasks : List Task) (h : tasks ≠ []) :
    ∃ t ∈ tasks, get_next_id tasks = t.id + 1 := by
  cases tasks with
  | nil => exact absurd rfl h
  | cons a rest =>
      have hm : pyMax ((a :: rest).map Task.id) 0 = a.id ∨
          pyMax ((a :: rest).map Task.id) 0 ∈ rest.map Task.id := by
        simp only [pyMax, List.map_cons]
        exact foldl_max_mem a.id (rest.map Task.id)
      rcases hm with h1 | h1
      · exact ⟨a, List.mem_cons_self a rest, by unfold get_next_id; rw [h1]⟩
      · rcases List.mem_map.mp h1 with ⟨t, ht, hid⟩
        exact ⟨t, List.mem_cons_of_mem a ht, by unfold get_next_id; rw [← hid]⟩

theorem get_task_by_id_eq_none (task_id : Int) :
    ∀ tasks : List Task, (∀ t ∈ tasks, t.id ≠ task_id) →
      get_task_by_id tasks task_id = none := by
  intro tasks
  induction tasks with
  | nil => intro _; rfl
  | cons a rest ih =>
      intro h
      simp only [get_task_by_id]
      rw [if_neg (h a (List.mem_cons_self a rest))]
      exact ih (fun t ht => h t (List.mem_cons_of_mem a ht))

theorem find_remove_decomp (task_id : Int) :
    ∀ tasks : List Task, (∃ t ∈ tasks, t.id = task_id) →
      ∃ l₁ t l₂, tasks = l₁ ++ t :: l₂ ∧ t.id = task_id ∧
        (∀ u ∈ l₁, u.id ≠ task_id) ∧
        get_task_by_id tasks task_id = some t ∧
        listRemove tasks t = l₁ ++ l₂ := by
  intro tasks
  induction tasks with
  | nil => rintro ⟨t, ht, -⟩; cases ht
  | cons a rest ih =>
      rintro ⟨t, ht, hid⟩
      by_cases ha : a.id = task_id
      · refine ⟨[], a, rest, rfl, ha, by simp, ?_, ?_⟩
        · simp [get_task_by_id, ha]
        · simp [listRemove]
      · have hmem : t ∈ rest := by
          rcases List.mem_cons.mp ht with rfl | h
          · exact absurd hid ha
          · exact h
        rcases ih ⟨t, hmem, hid⟩ with ⟨l₁, t', l₂, hsplit, hid', hno, hfind, hrem⟩
        refine ⟨a :: l₁, t', l₂, by rw [hsplit]; rfl, hid', ?_, ?_, ?_⟩
        · intro u hu
          rcases List.mem_cons.mp hu with rfl | h
          · exact ha
          · exact hno u h
        · simp [get_task_by_id, ha, hfind]
        · have hat : a ≠ t' := fun he => ha (he ▸ hid')
          simp [listRemove, hat, hrem]

theorem from_dict_to_dict (t : Task) :
    Task.from_dict (Json.obj t.to_dict) = Except.ok t := by
  cases t
  rfl

theorem loadList_map_to_dict (tasks : List Task) :
    loadList (tasks.map (fun t => Json.obj t.to_dict)) = Except.ok tasks := by
  induction tasks with
  | nil => rfl
  | cons t rest ih =>
      simp only [List.map_cons, loadList, from_dict_to_dict, ih]
      rfl

/-- C1: the claim says `update` finds the task by id, rewrites its
description and `updatedAt` on success, and returns failure without raising
on a missing id.  In the code, `update_task` begins with
`task = self.get_next_id(task_id)`, a call with an extra positional
argument, so it raises `TypeError` both when the id exists (here id 1, the
input of the repository's own test, which expects `True`) and when it does
not (id 42): it never updates and never returns the not-found result. -/
theorem update_task_always_raises :
    update_task [oldTask] 1 "Updated Task" "02/02/2025 10:00:00"
      = Except.error (PyError.typeError
          "get_next_id takes 1 positional argument but 2 were given") ∧
    update_task [oldTask] 42 "x" "02/02/2025 10:00:00"
      = Except.error (PyError.typeError
          "get_next_id takes 1 positional argument but 2 were given") :=
  ⟨rfl, rfl⟩

/-- C2: the claim says `markStatus` on an existing id modifies only `status`
and `updatedAt`.  In the code, `mark_task` begins with the same
`task = self.get_next_id(task_id)` call as `update_task`, so it raises
`TypeError` on every input — shown here on a store containing the given
id 1 and on a missing id 2 — and modifies nothing. -/
theorem mark_task_always_raises :
    mark_task [oldTask] 1 "done" "02/02/2025 10:00:00"
      = Except.error (PyError.typeError
          "get_next_id takes 1 positional argument but 2 were given") ∧
    mark_task [oldTask] 2 "done" "02/02/2025 10:00:00"
      = Except.error (PyError.typeError
          "get_next_id takes 1 positional argument but 2 were given") :=
  ⟨rfl, rfl⟩

/-- C3 counterexample: ids are reused after deletion.  Running
add, add, delete 2, add from the empty store assigns the ids 1, 2 and then
2 again, because `get_next_id` is one more than the maximum of the ids
still present. -/
theorem id_reuse_counterexample :
    (run opsReuse).2 = [1, 2, 2] ∧ ¬ (run opsReuse).2.Nodup := by
  exact ⟨by decide, by decide⟩

/-- C3 amended: the id assigned by `add` is strictly greater than the id of
every task currently in the store, hence distinct from all ids present at
the time of the add; ids of already-deleted tasks can be reassigned. -/
theorem add_assigns_fresh_id (tasks : List Task) (description now : String) :
    ∀ t ∈ tasks, t.id < (add_task tasks description now).2 := by
  intro t ht
  exact id_lt_get_next_id tasks t ht

theorem add_assigns_fresh_id_witness :
    task3 ∈ [task1, task3] ∧ task3.id < (add_task [task1, task3] "x" "ts").2 :=
  ⟨by decide, add_assigns_fresh_id [task1, task3] "x" "ts" task3 (by decide)⟩

/-- C4 counterexample: a backing file holding valid JSON whose object lacks
the required Task keys does not yield an empty store: `Task.from_dict`
raises `KeyError` on the first missing key, and `load_tasks` catches only
`JSONDecodeError` and `IOError`, so the exception propagates. -/
theorem load_missing_key_raises :
    load_tasks (LoadSrc.parsed (Json.arr [Json.obj []]))
      = Except.error (PyError.keyError "id") := rfl

/-- C4 amended: a missing backing file, an unreadable backing file, and
content that is not valid JSON all yield an empty store silently; only
valid JSON that does not match the Task schema escapes as an uncaught
exception. -/
theorem load_tasks_empty_on_unparseable :
    load_tasks LoadSrc.missing = Except.ok [] ∧
    (∀ msg, load_tasks (LoadSrc.invalid msg) = Except.ok []) ∧
    (∀ msg, load_tasks (LoadSrc.unreadable msg) = Except.ok []) :=
  ⟨rfl, fun _ => rfl, fun _ => rfl⟩

/-- C5 counterexample: `add_task` performs no validation, so adding the
empty description to the empty store produces a store containing a task
whose description is the empty string. -/
theorem add_empty_description_counterexample :
    (add_task [] "" "01/01/2025 00:00:00").1
      = [⟨1, "", "todo", "01/01/2025 00:00:00", "01/01/2025 00:00:00"⟩] := rfl

/-- C5 amended: `add` copies its argument verbatim, so non-emptiness of all
descriptions is preserved only when the added description is itself
non-empty; and `update` never produces any task because it raises before
modifying the store. -/
theorem descriptions_nonempty_conditional :
    (∀ (tasks : List Task) (description now : String), description ≠ "" →
      (∀ t ∈ tasks, t.description ≠ "") →
      ∀ t ∈ (add_task tasks description now).1, t.description ≠ "") ∧
    (∀ (tasks : List Task) (task_id : Int) (description now : String),
      ∃ e, update_task tasks task_id description now = Except.error e) := by
  constructor
  · intro tasks description now hd hts t ht
    rcases List.mem_append.mp ht with h | h
    · exact hts t h
    · rw [List.mem_singleton.mp h]
      exact hd
  · intro tasks task_id description now
    exact ⟨_, rfl⟩

theorem descriptions_nonempty_conditional_witness :
    ("Buy milk" : String) ≠ "" ∧ (∀ t ∈ [oldTask], t.description ≠ "") ∧
    ∀ t ∈ (add_task [oldTask] "Buy milk" "ts").1, t.description ≠ "" :=
  ⟨by decide, by decide,
    descriptions_nonempty_conditional.1 [oldTask] "Buy milk" "ts"
      (by decide) (by decide)⟩

/-- C6: `save_tasks` followed by `load_tasks` reproduces the ordered task
list exactly: same length and, position by position, the same id,
description, status, createdAt and updatedAt. -/
theorem save_load_round_trip (tasks : List Task) :
    load_tasks (LoadSrc.parsed (save_tasks tasks)) = Except.ok tasks := by
  simp only [save_tasks, load_tasks]
  exact loadList_map_to_dict tasks

/-- C7: `get_next_id` returns 1 on the empty store; on a non-empty store it
returns one more than the maximum existing id (every id is strictly below
it and it is one more than some id in the store); on ids 1, 3, 5 it
returns 6. -/
theorem get_next_id_spec :
    get_next_id ([] : List Task) = 1 ∧
    (∀ tasks : List Task, tasks ≠ [] →
      (∀ t ∈ tasks, t.id < get_next_id tasks) ∧
        ∃ t ∈ tasks, get_next_id tasks = t.id + 1) ∧
    get_next_id [task1, task3, task5] = 6 := by
  refine ⟨rfl, ?_, by decide⟩
  intro tasks h
  exact ⟨fun t ht => id_lt_get_next_id tasks t ht, get_next_id_attained tasks h⟩

theorem get_next_id_spec_witness :
    ([task1, task3, task5] : List Task) ≠ [] ∧
    ((∀ t ∈ [task1, task3, task5], t.id < get_next_id [task1, task3, task5]) ∧
      ∃ t ∈ [task1, task3, task5], get_next_id [task1, task3, task5] = t.id + 1) :=
  ⟨by decide, get_next_id_spec.2.1 [task1, task3, task5] (by decide)⟩

/-- C8: `add_task` appends exactly one task, with the freshly assigned next
id, status `todo`, and `createdAt` equal to `updatedAt` (both the current
timestamp `now`), returning the new id; on the empty store the new id
is 1.  The returned list is what `save_tasks` persists. -/
theorem add_task_spec (tasks : List Task) (description now : String) :
    add_task tasks description now
      = (tasks ++ [⟨get_next_id tasks, description, "todo", now, now⟩],
          get_next_id tasks) ∧
    (add_task [] description now).2 = 1 :=
  ⟨rfl, rfl⟩

/-- C9: when the store contains the given id, `delete_task` removes exactly
the first task carrying it, keeps every other task in its original relative
order, and returns true; when no task carries the id it returns false and
the store is unchanged. -/
theorem delete_task_spec :
    (∀ (tasks : List Task) (task_id : Int), (∃ t ∈ tasks, t.id = task_id) →
      ∃ l₁ t l₂, tasks = l₁ ++ t :: l₂ ∧ t.id = task_id ∧
        (∀ u ∈ l₁, u.id ≠ task_id) ∧
        delete_task tasks task_id = (l₁ ++ l₂, true)) ∧
    (∀ (tasks : List Task) (task_id : Int), (∀ t ∈ tasks, t.id ≠ task_id) →
      delete_task tasks task_id = (tasks, false)) := by
  constructor
  · intro tasks task_id h
    rcases find_remove_decomp task_id tasks h with
      ⟨l₁, t, l₂, hsplit, hid, hno, hfind, hrem⟩
    exact ⟨l₁, t, l₂, hsplit, hid, hno, by simp [delete_task, hfind, hrem]⟩
  · intro tasks task_id h
    simp [delete_task, get_task_by_id_eq_none task_id tasks h]

theorem delete_task_spec_witness :
    ((∃ t ∈ [task1, task3], t.id = 3) ∧
      ∃ l₁ t l₂, ([task1, task3] : List Task) = l₁ ++ t :: l₂ ∧ t.id = 3 ∧
        (∀ u ∈ l₁, u.id ≠ 3) ∧
        delete_task [task1, task3] 3 = (l₁ ++ l₂, true)) ∧
    ((∀ t ∈ [task1, task3], t.id ≠ 2) ∧
      delete_task [task1, task3] 2 = ([task1, task3], false)) :=
  ⟨⟨by decide, delete_task_spec.1 [task1, task3] 3 (by decide)⟩,
    ⟨by decide, delete_task_spec.2 [task1, task3] 2 (by decide)⟩⟩

/-- C10: `list_tasks` treats the empty-string filter like no filter — the
empty string is falsy in Python — returning the whole store in order; for a
non-empty status string it returns exactly the tasks with that status in
their original relative order; the `None` filter also returns the whole
store. -/
theorem list_tasks_spec :
    (∀ tasks : List Task, list_tasks tasks (some "") = tasks) ∧
    (∀ (tasks : List Task) (s : String), s ≠ "" →
      list_tasks tasks (some s) = tasks.filter (fun t => t.status == s)) ∧
    (∀ tasks : List Task, list_tasks tasks none = tasks) := by
  refine ⟨fun tasks => rfl, ?_, fun tasks => rfl⟩
  intro tasks s hs
  simp [list_tasks, pyTruthy, hs]

theorem list_tasks_spec_witness :
    ("done" : String) ≠ "" ∧
    list_tasks [task1, task3, task5] (some "done")
      = List.filter (fun t => t.status == "done") [task1, task3, task5] :=
  ⟨by decide, list_tasks_spec.2.1 [task1, task3, task5] "done" (by decide)⟩

end TaskCLI
